import Mathlib

/-!
Verification of the negotiation session engine of the
FDE-TC-Inbound-Carrier-Sales repository (`backend/negotiation.py`).

Modelling conventions:
* Python floats are modelled as rationals (`ℚ`); `round(x, 2)` is modelled by
  `round2` below using Mathlib's `round` (round-half-up).  None of the claims
  settled here depends on a half-way rounding tie, so the difference from
  Python's float round-half-to-even is immaterial to the statements.
* The `offer` argument of `update_negotiation_session` may be `None`, an
  `int`/`float`, or a string.  A string is classified by two independent
  attributes of the source code: whether
  `str(offer).strip().replace('.', '', 1).isdigit()` holds (the digit-shape
  guard of line 125) and what `float(offer)` yields (the parse of line 142,
  `Option.none` when it raises).  `RawOffer.text` carries exactly these two
  attributes.  Both combinations not forced by arithmetic are realisable in
  Python: `"-100"` is `text false (some (-100))` up to the guard (the guard
  only consults the Bool, see `parseFloat`), and the superscript digit
  `"²"` is `text true Option.none` (`'²'.isdigit()` is `True` while
  `float('²')` raises `ValueError`).
* The module-level dict `NEGOTIATION_SESSIONS` is modelled as a `Store`
  (a map from key strings to optional sessions) threaded explicitly.
* The `created_at` timestamp field is omitted: it is never read by any
  operation of the engine.
* The human-readable `message` strings are modelled by the inductive
  `Message`, one constructor per distinct source string, carrying the
  numeric argument where the source interpolates one
  (`f"Accepted at {rate:.2f}"` and the counter message).
-/

/-- Epsilon for float comparisons, `EPS = 1e-6` in the source. -/
def EPS : ℚ := 1 / 1000000

/-- Python `round(x, 2)`: round to two decimal places. -/
def round2 (x : ℚ) : ℚ := (round (x * 100) : ℤ) / 100

/-- The carrier's raw offer as accepted by `update_negotiation_session`:
`missing` is Python `None`; `num x` an `int`/`float` of value `x`;
`text digitShaped parsed` a string, where `digitShaped` is the result of
`str(offer).strip().replace('.', '', 1).isdigit()` and `parsed` the result
of `float(offer)` (`Option.none` when `float` raises). -/
inductive RawOffer where
  | missing : RawOffer
  | num : ℚ → RawOffer
  | text : Bool → Option ℚ → RawOffer
deriving DecidableEq

/-- Line 125 guard: `offer is None or (not isinstance(offer, (int, float))
and not str(offer).strip().replace('.', '', 1).isdigit())`. -/
def needsNumericGuard : RawOffer → Bool
  | RawOffer.missing => true
  | RawOffer.num _ => false
  | RawOffer.text digitShaped _ => !digitShaped

/-- Line 142 `float(offer)`, attempted only after the guard passed. -/
def parseFloat : RawOffer → Option ℚ
  | RawOffer.missing => Option.none
  | RawOffer.num x => some x
  | RawOffer.text _ parsed => parsed

/-- The `NegotiationSession` dataclass (the `created_at` timestamp is
omitted; it is never consulted by the engine). -/
structure NegotiationSession where
  mc_number : String
  load_id : String
  loadboard_rate : ℚ
  session_id : Option String := Option.none
  round_number : ℤ := 0
  carrier_offers : List ℚ := []
  agreed_rate : Option ℚ := Option.none
  status : String := "ongoing"
  last_counter_offer : Option ℚ := Option.none
deriving DecidableEq

/-- A fresh session as built by `_get_or_create_session` (dataclass
defaults: round 0, no offers, status `"ongoing"`). -/
def NegotiationSession.init (mc_number load_id : String) (loadboard_rate : ℚ)
    (session_id : Option String) : NegotiationSession :=
  { mc_number := mc_number, load_id := load_id,
    loadboard_rate := loadboard_rate, session_id := session_id }

/-- The distinct `message` strings of the returned payloads.  `acceptedAt r`
stands for `f"Accepted at {r:.2f}"`, `counteredWith r` for
`f"Carrier offer too high. Broker countered with {r:.2f}."`. -/
inductive Message where
  | needsNumericFromCarrier : Message
  | nonNumericIgnored : Message
  | sessionAlreadyAccepted : Message
  | sessionFailed : Message
  | acceptedAt : ℚ → Message
  | reachedLimit : Message
  | counteredWith : ℚ → Message
deriving DecidableEq

/-- The decision payload returned by `update_negotiation_session`. -/
structure Decision where
  agreed_rate : Option ℚ
  broker_counter_offer : Option ℚ
  carrier_offers : List ℚ
  hard_cap : ℚ
  load_id : String
  max_acceptable : ℚ
  mc_number : String
  message : Message
  round_number : ℤ
  status : String
deriving DecidableEq

/-- `_append_offer_once`: append `x` unless it repeats the last logged
offer within `EPS`. -/
def appendOfferOnce (offers : List ℚ) (x : ℚ) : List ℚ :=
  match offers.getLast? with
  | Option.none => offers ++ [x]
  | some last => if EPS ≤ |last - x| then offers ++ [x] else offers

/-- `_round_tolerance`: `round(base * (1 + 0.05 * max(1, min(n, 3))), 2)`. -/
def roundTolerance (base : ℚ) (round_number : ℤ) : ℚ :=
  round2 (base * (1 + 5/100 * (max 1 (min round_number 3) : ℤ)))

/-- `_hard_cap`: `round(base * 1.15, 2)`. -/
def hardCap (base : ℚ) : ℚ := round2 (base * (115/100))

/-- Python `n or 1` for an integer round number (`0` is falsy). -/
def orOne (n : ℤ) : ℤ := if n = 0 then 1 else n

/-- Lines 126-138: the pending payload for a missing/non-digit-shaped
offer.  The source inlines the `_hard_cap` and `_round_tolerance`
formulas; `round_number` is `session.round_number or 0`, which is the
identity on integers. -/
def guardDecision (s : NegotiationSession) : Decision :=
  { agreed_rate := Option.none
    broker_counter_offer := Option.none
    carrier_offers := s.carrier_offers
    hard_cap := hardCap s.loadboard_rate
    load_id := s.load_id
    max_acceptable := roundTolerance s.loadboard_rate (orOne s.round_number)
    mc_number := s.mc_number
    message := Message.needsNumericFromCarrier
    round_number := s.round_number
    status := "pending" }

/-- Lines 145-156: payload when `float(offer)` raises after the guard
passed ("Non-numeric offer ignored"). -/
def ignoredDecision (s : NegotiationSession) : Decision :=
  { agreed_rate := Option.none
    broker_counter_offer := s.last_counter_offer
    carrier_offers := s.carrier_offers
    hard_cap := hardCap s.loadboard_rate
    load_id := s.load_id
    max_acceptable := roundTolerance s.loadboard_rate (max 1 s.round_number)
    mc_number := s.mc_number
    message := Message.nonNumericIgnored
    round_number := s.round_number
    status := s.status }

/-- Lines 160-171: frozen payload returned when the session is already
terminal. -/
def frozenDecision (s : NegotiationSession) : Decision :=
  { agreed_rate := s.agreed_rate
    broker_counter_offer :=
      if s.status = "accepted" then Option.none else s.last_counter_offer
    carrier_offers := s.carrier_offers
    hard_cap := hardCap s.loadboard_rate
    load_id := s.load_id
    max_acceptable := roundTolerance s.loadboard_rate (max 1 (orOne s.round_number))
    mc_number := s.mc_number
    message := if s.status = "accepted" then Message.sessionAlreadyAccepted
               else Message.sessionFailed
    round_number := s.round_number
    status := s.status }

/-- Lines 175-190, Case A: the carrier echoes the broker's last counter
`c`; accept at `c`.  The source sets `status` and `agreed_rate` only — it
does not clear `last_counter_offer` and does not touch `round_number`. -/
def echoAcceptResult (s : NegotiationSession) (c : ℚ) :
    NegotiationSession × Decision :=
  ({ s with status := "accepted", agreed_rate := some c },
   { agreed_rate := some c
     broker_counter_offer := Option.none
     carrier_offers := s.carrier_offers
     hard_cap := hardCap s.loadboard_rate
     load_id := s.load_id
     max_acceptable := roundTolerance s.loadboard_rate (max 1 (orOne s.round_number))
     mc_number := s.mc_number
     message := Message.acceptedAt c
     round_number := max 1 s.round_number
     status := "accepted" })

/-- Lines 193-208, Case B: round-0 initial acceptance at the board rate. -/
def roundZeroAcceptResult (s : NegotiationSession) :
    NegotiationSession × Decision :=
  ({ s with status := "accepted", agreed_rate := some s.loadboard_rate },
   { agreed_rate := some s.loadboard_rate
     broker_counter_offer := Option.none
     carrier_offers := s.carrier_offers
     hard_cap := hardCap s.loadboard_rate
     load_id := s.load_id
     max_acceptable := roundTolerance s.loadboard_rate 1
     mc_number := s.mc_number
     message := Message.acceptedAt s.loadboard_rate
     round_number := 1
     status := "accepted" })

/-- Lines 210-272: the new-offer path.  Append the offer at most once,
bump the round (`max(1, round_number + 1)`), clamp to `r ∈ [1, 3]`, then
accept within tolerance, fail at round 3, or counter at the ceiling. -/
def newOfferStep (s : NegotiationSession) (off : ℚ) :
    NegotiationSession × Decision :=
  let base := s.loadboard_rate
  let offers := appendOfferOnce s.carrier_offers off
  let rn := max 1 (s.round_number + 1)
  let r := max 1 (min rn 3)
  let maxAcc := roundTolerance base r
  let cap := hardCap base
  if off ≤ maxAcc + EPS then
    ({ s with carrier_offers := offers, round_number := rn,
              status := "accepted", agreed_rate := some (round2 off),
              last_counter_offer := Option.none },
     { agreed_rate := some (round2 off)
       broker_counter_offer := Option.none
       carrier_offers := offers
       hard_cap := cap
       load_id := s.load_id
       max_acceptable := maxAcc
       mc_number := s.mc_number
       message := Message.acceptedAt (round2 off)
       round_number := r
       status := "accepted" })
  else if 3 ≤ r ∧ maxAcc + EPS < off then
    ({ s with carrier_offers := offers, round_number := rn,
              status := "failed", agreed_rate := Option.none },
     { agreed_rate := Option.none
       broker_counter_offer := s.last_counter_offer
       carrier_offers := offers
       hard_cap := cap
       load_id := s.load_id
       max_acceptable := maxAcc
       mc_number := s.mc_number
       message := Message.reachedLimit
       round_number := r
       status := "failed" })
  else
    ({ s with carrier_offers := offers, round_number := rn,
              last_counter_offer := some maxAcc },
     { agreed_rate := Option.none
       broker_counter_offer := some maxAcc
       carrier_offers := offers
       hard_cap := cap
       load_id := s.load_id
       max_acceptable := maxAcc
       mc_number := s.mc_number
       message := Message.counteredWith maxAcc
       round_number := r
       status := "ongoing" })

/-- `update_negotiation_session`, acting on the resolved session.  Branch
order follows the source exactly: non-numeric guard, parse, terminal
idempotency, echo acceptance, then `newOfferStep` (which begins with the
round-0 Case B check of line 193). -/
def updateNegotiationSession (s : NegotiationSession) (offer : RawOffer) :
    NegotiationSession × Decision :=
  if needsNumericGuard offer then (s, guardDecision s)
  else
    match parseFloat offer with
    | Option.none => (s, ignoredDecision s)
    | some off =>
      if s.status = "accepted" ∨ s.status = "failed" then (s, frozenDecision s)
      else
        match s.last_counter_offer with
        | some c =>
          if |off - c| < EPS then echoAcceptResult s c
          else
            if s.round_number = 0 ∧ |off - s.loadboard_rate| < EPS then
              roundZeroAcceptResult s
            else newOfferStep s off
        | Option.none =>
          if s.round_number = 0 ∧ |off - s.loadboard_rate| < EPS then
            roundZeroAcceptResult s
          else newOfferStep s off

/-- The in-memory session map `NEGOTIATION_SESSIONS`. -/
abbrev Store := String → Option NegotiationSession

/-- Python `session_id or 'no-session'` with Python truthiness: both
`None` and the falsy empty string fall back to the literal
`"no-session"`. -/
def orNoSession : Option String → String
  | Option.none => "no-session"
  | some sid => if sid = "" then "no-session" else sid

/-- `_session_key`: `f"{session_id or 'no-session'}::{mc_number}::{load_id}"`. -/
def sessionKey (mc_number load_id : String) (session_id : Option String) : String :=
  orNoSession session_id ++ "::" ++ mc_number ++ "::" ++ load_id

/-- `_get_or_create_session`: look the key up, inserting a fresh default
session when absent. -/
def getOrCreateSession (store : Store) (mc_number load_id : String)
    (loadboard_rate : ℚ) (session_id : Option String) :
    NegotiationSession × Store :=
  let key := sessionKey mc_number load_id session_id
  match store key with
  | some sess => (sess, store)
  | Option.none =>
    let sess := NegotiationSession.init mc_number load_id loadboard_rate session_id
    (sess, fun k => if k = key then some sess else store k)

/-- The full operation on the store: resolve the session, run
`update_negotiation_session`, and store the (possibly mutated) session
back under its key — Python mutates the dict entry in place. -/
def submitOffer (store : Store) (load_id mc_number : String) (offer : RawOffer)
    (loadboard_rate : ℚ) (session_id : Option String) : Store × Decision :=
  let key := sessionKey mc_number load_id session_id
  let resolved := getOrCreateSession store mc_number load_id loadboard_rate session_id
  let stepped := updateNegotiationSession resolved.1 offer
  (fun k => if k = key then some stepped.1 else resolved.2 k, stepped.2)

/-- `reset_session`: drop the key from the store (no-op when absent). -/
def resetSession (store : Store) (mc_number load_id : String)
    (session_id : Option String) : Store :=
  fun k => if k = sessionKey mc_number load_id session_id then Option.none else store k

/-- States reachable from a freshly created session by any sequence of
offers submitted through the engine. -/
inductive Reachable : NegotiationSession → Prop where
  | init : ∀ mc load rate sid, Reachable (NegotiationSession.init mc load rate sid)
  | step : ∀ s o, Reachable s → Reachable (updateNegotiationSession s o).1

/-- A mid-negotiation session: board rate 1000, one over-tolerance offer of
1300 logged in round 1, broker counter 1050 outstanding.  (This is exactly
the session produced by submitting 1300 against a fresh session, see
`demoStep1` below.) -/
def sessionAfterCounter : NegotiationSession :=
  { mc_number := "MC-100049", load_id := "L-1001", loadboard_rate := 1000,
    session_id := some "call-1", round_number := 1, carrier_offers := [1300],
    agreed_rate := Option.none, status := "ongoing",
    last_counter_offer := some 1050 }

/-- A terminal session: the carrier echoed the 1050 counter, so the deal
closed at 1050 (note `last_counter_offer` is still set — the source does
not clear it on echo acceptance). -/
def acceptedSession : NegotiationSession :=
  { mc_number := "MC-100049", load_id := "L-1001", loadboard_rate := 1000,
    session_id := some "call-1", round_number := 1, carrier_offers := [1300],
    agreed_rate := some 1050, status := "accepted",
    last_counter_offer := some 1050 }

/-- Session after a first offer of 1300 against a fresh 1000-rate session. -/
def demoStep1 : NegotiationSession :=
  (updateNegotiationSession
    (NegotiationSession.init "MC-100049" "L-1001" 1000 (some "call-1"))
    (RawOffer.num 1300)).1

/-- Session after the carrier repeats 1300 (round bumps, no re-log). -/
def demoStep2 : NegotiationSession :=
  (updateNegotiationSession demoStep1 (RawOffer.num 1300)).1

/-- Session after a third over-tolerance offer of 1400 (negotiation fails). -/
def demoStep3 : NegotiationSession :=
  (updateNegotiationSession demoStep2 (RawOffer.num 1400)).1

/-- A one-entry store holding `sessionAfterCounter` under its key. -/
def demoStore : Store :=
  fun k => if k = sessionKey "MC-100049" "L-1001" (some "call-1") then
    some sessionAfterCounter else Option.none

/-- Invariant maintained by every engine operation: the stored status is
one of the three session statuses (never `"pending"`), and a failed
session has seen at least three rounds. -/
def SessionInv (s : NegotiationSession) : Prop :=
  (s.status = "ongoing" ∨ s.status = "accepted" ∨ s.status = "failed") ∧
  (s.status = "failed" → 3 ≤ s.round_number)

/-! ### Branch lemmas for `updateNegotiationSession` -/

lemma update_of_guard (s : NegotiationSession) (o : RawOffer)
    (h : needsNumericGuard o = true) :
    updateNegotiationSession s o = (s, guardDecision s) := by
  simp [updateNegotiationSession, h]

lemma update_of_unparsed (s : NegotiationSession) (o : RawOffer)
    (hg : needsNumericGuard o = false) (hp : parseFloat o = Option.none) :
    updateNegotiationSession s o = (s, ignoredDecision s) := by
  simp [updateNegotiationSession, hg, hp]

lemma update_of_terminal (s : NegotiationSession) (o : RawOffer) (x : ℚ)
    (hg : needsNumericGuard o = false) (hp : parseFloat o = some x)
    (ht : s.status = "accepted" ∨ s.status = "failed") :
    updateNegotiationSession s o = (s, frozenDecision s) := by
  simp [updateNegotiationSession, hg, hp, ht]

lemma update_of_echo (s : NegotiationSession) (x c : ℚ)
    (ht : ¬(s.status = "accepted" ∨ s.status = "failed"))
    (hc : s.last_counter_offer = some c) (hx : |x - c| < EPS) :
    updateNegotiationSession s (RawOffer.num x) = echoAcceptResult s c := by
  simp [updateNegotiationSession, needsNumericGuard, parseFloat, ht, hc, hx]

lemma update_of_num_noEcho (s : NegotiationSession) (x : ℚ)
    (ht : ¬(s.status = "accepted" ∨ s.status = "failed"))
    (hech : ∀ c, s.last_counter_offer = some c → EPS ≤ |x - c|) :
    updateNegotiationSession s (RawOffer.num x) =
      if s.round_number = 0 ∧ |x - s.loadboard_rate| < EPS then
        roundZeroAcceptResult s
      else newOfferStep s x := by
  rcases hc : s.last_counter_offer with _ | c
  · simp [updateNegotiationSession, needsNumericGuard, parseFloat, ht, hc]
  · have hfar : ¬(|x - c| < EPS) := not_lt.mpr (hech c hc)
    simp [updateNegotiationSession, needsNumericGuard, parseFloat, ht, hc, hfar]

lemma update_of_roundZero (s : NegotiationSession) (x : ℚ)
    (ht : ¬(s.status = "accepted" ∨ s.status = "failed"))
    (hech : ∀ c, s.last_counter_offer = some c → EPS ≤ |x - c|)
    (h0 : s.round_number = 0 ∧ |x - s.loadboard_rate| < EPS) :
    updateNegotiationSession s (RawOffer.num x) = roundZeroAcceptResult s := by
  rw [update_of_num_noEcho s x ht hech, if_pos h0]

lemma update_of_newOffer (s : NegotiationSession) (x : ℚ)
    (ht : ¬(s.status = "accepted" ∨ s.status = "failed"))
    (hech : ∀ c, s.last_counter_offer = some c → EPS ≤ |x - c|)
    (h0 : ¬(s.round_number = 0 ∧ |x - s.loadboard_rate| < EPS)) :
    updateNegotiationSession s (RawOffer.num x) = newOfferStep s x := by
  rw [update_of_num_noEcho s x ht hech, if_neg h0]

/-- A raw offer that passes the guard and parses behaves like the plain
number it parses to. -/
lemma update_eq_update_num (s : NegotiationSession) (o : RawOffer) (x : ℚ)
    (hg : needsNumericGuard o = false) (hp : parseFloat o = some x) :
    updateNegotiationSession s o = updateNegotiationSession s (RawOffer.num x) := by
  cases o with
  | missing => simp [parseFloat] at hp
  | num y =>
    have hyx : y = x := by simpa [parseFloat] using hp
    rw [hyx]
  | text d p =>
    cases d with
    | false => simp [needsNumericGuard] at hg
    | true =>
      have hpx : p = some x := hp
      subst hpx
      rfl

lemma newOfferStep_carrier_offers (s : NegotiationSession) (x : ℚ) :
    (newOfferStep s x).1.carrier_offers = appendOfferOnce s.carrier_offers x := by
  unfold newOfferStep
  dsimp only
  split_ifs <;> rfl

lemma newOfferStep_round_number (s : NegotiationSession) (x : ℚ) :
    (newOfferStep s x).1.round_number = max 1 (s.round_number + 1) := by
  unfold newOfferStep
  dsimp only
  split_ifs <;> rfl

lemma newOfferStep_loadboard_rate (s : NegotiationSession) (x : ℚ) :
    (newOfferStep s x).1.loadboard_rate = s.loadboard_rate := by
  unfold newOfferStep
  dsimp only
  split_ifs <;> rfl

/-- Status outcome of the new-offer path: accept, fail (possible only when
the bumped round is at least 3), or keep the prior status and counter. -/
lemma newOfferStep_status_cases (s : NegotiationSession) (x : ℚ) :
    (newOfferStep s x).1.status = "accepted" ∨
    ((newOfferStep s x).1.status = "failed" ∧ (3:ℤ) ≤ s.round_number + 1) ∨
    (newOfferStep s x).1.status = s.status := by
  unfold newOfferStep
  dsimp only
  split_ifs with h1 h2
  · exact Or.inl rfl
  · refine Or.inr (Or.inl ⟨rfl, ?_⟩)
    omega
  · exact Or.inr (Or.inr rfl)

/-- Every call either leaves the session untouched, closes it by echo or
round-zero acceptance (touching only `status` and `agreed_rate`), or runs
the new-offer path on a non-terminal session. -/
lemma update_fst_cases (s : NegotiationSession) (o : RawOffer) :
    (updateNegotiationSession s o).1 = s ∨
    (¬(s.status = "accepted" ∨ s.status = "failed") ∧
      (updateNegotiationSession s o).1.carrier_offers = s.carrier_offers ∧
      (updateNegotiationSession s o).1.round_number = s.round_number ∧
      (updateNegotiationSession s o).1.status = "accepted" ∧
      (updateNegotiationSession s o).1.loadboard_rate = s.loadboard_rate ∧
      (updateNegotiationSession s o).1.last_counter_offer = s.last_counter_offer) ∨
    (∃ x, ¬(s.status = "accepted" ∨ s.status = "failed") ∧
        (updateNegotiationSession s o).1 = (newOfferStep s x).1) := by
  rcases hg : needsNumericGuard o with _ | _
  · rcases hp : parseFloat o with _ | x
    · rw [update_of_unparsed s o hg hp]
      exact Or.inl rfl
    · by_cases ht : s.status = "accepted" ∨ s.status = "failed"
      · rw [update_of_terminal s o x hg hp ht]
        exact Or.inl rfl
      · rw [update_eq_update_num s o x hg hp]
        rcases hc : s.last_counter_offer with _ | c
        · have hech : ∀ d, s.last_counter_offer = some d → EPS ≤ |x - d| := by
            intro d hd
            rw [hc] at hd
            exact absurd hd (by simp)
          by_cases h0 : s.round_number = 0 ∧ |x - s.loadboard_rate| < EPS
          · rw [update_of_roundZero s x ht hech h0]
            exact Or.inr (Or.inl ⟨ht, by simp [roundZeroAcceptResult, hc]⟩)
          · rw [update_of_newOffer s x ht hech h0]
            exact Or.inr (Or.inr ⟨x, ht, rfl⟩)
        · by_cases hecho : |x - c| < EPS
          · rw [update_of_echo s x c ht hc hecho]
            exact Or.inr (Or.inl ⟨ht, by simp [echoAcceptResult, hc]⟩)
          · have hech : ∀ d, s.last_counter_offer = some d → EPS ≤ |x - d| := by
              intro d hd
              rw [hc] at hd
              cases hd
              exact not_lt.mp hecho
            by_cases h0 : s.round_number = 0 ∧ |x - s.loadboard_rate| < EPS
            · rw [update_of_roundZero s x ht hech h0]
              exact Or.inr (Or.inl ⟨ht, by simp [roundZeroAcceptResult, hc]⟩)
            · rw [update_of_newOffer s x ht hech h0]
              exact Or.inr (Or.inr ⟨x, ht, rfl⟩)
  · rw [update_of_guard s o hg]
    exact Or.inl rfl

/-! ### Arithmetic helpers for `round2` -/

lemma round2_le_round2 {a b : ℚ} (h : a ≤ b) : round2 a ≤ round2 b := by
  unfold round2
  have hr : round (a * 100) ≤ round (b * 100) := by
    rw [round_eq, round_eq]
    exact Int.floor_le_floor (by linarith)
  have h100 : (0:ℚ) < 100 := by norm_num
  exact (div_le_div_iff_of_pos_right h100).mpr (by exact_mod_cast hr)

/-- If `b` exceeds `a` by at least one hundredth, rounding to two decimals
keeps the strict inequality. -/
lemma round2_lt_round2 {a b : ℚ} (h : a + 1/100 ≤ b) : round2 a < round2 b := by
  unfold round2
  have hr : round (a * 100) + 1 ≤ round (b * 100) := by
    rw [round_eq, round_eq]
    have h1 : (⌊a * 100 + 1/2⌋ : ℤ) + 1 = ⌊a * 100 + 1/2 + 1⌋ := (Int.floor_add_one _).symm
    rw [h1]
    exact Int.floor_le_floor (by linarith)
  have h100 : (0:ℚ) < 100 := by norm_num
  refine (div_lt_div_iff_of_pos_right h100).mpr ?_
  exact_mod_cast hr

/-! ### Invariant helpers -/

lemma chain_appendOfferOnce {l : List ℚ}
    (hl : l.Chain' (fun a b => EPS ≤ |a - b|)) (x : ℚ) :
    (appendOfferOnce l x).Chain' (fun a b => EPS ≤ |a - b|) := by
  unfold appendOfferOnce
  rcases hlast : l.getLast? with _ | last
  · have hnil : l = [] := List.getLast?_eq_none_iff.mp hlast
    subst hnil
    simp
  · dsimp only
    split_ifs with hx
    · rw [List.chain'_append]
      refine ⟨hl, by simp, ?_⟩
      intro a ha b hb
      rw [hlast] at ha
      simp only [Option.mem_def, Option.some_inj] at ha
      simp only [List.head?_cons, Option.mem_def, Option.some_inj] at hb
      rw [ha, hb] at hx
      exact hx
    · exact hl

lemma update_carrier_offers_cases (s : NegotiationSession) (o : RawOffer) :
    (updateNegotiationSession s o).1.carrier_offers = s.carrier_offers ∨
    ∃ x, (updateNegotiationSession s o).1.carrier_offers =
        appendOfferOnce s.carrier_offers x := by
  rcases update_fst_cases s o with hcase | ⟨_, hoff, _⟩ | ⟨x, _, hcase⟩
  · rw [hcase]
    exact Or.inl rfl
  · exact Or.inl hoff
  · rw [hcase, newOfferStep_carrier_offers]
    exact Or.inr ⟨x, rfl⟩

lemma update_keeps_loadboard_rate (s : NegotiationSession) (o : RawOffer) :
    (updateNegotiationSession s o).1.loadboard_rate = s.loadboard_rate := by
  rcases update_fst_cases s o with hcase | ⟨_, _, _, _, hlb, _⟩ | ⟨x, _, hcase⟩
  · rw [hcase]
  · exact hlb
  · rw [hcase, newOfferStep_loadboard_rate]

lemma update_round_number_mono (s : NegotiationSession) (o : RawOffer) :
    s.round_number ≤ (updateNegotiationSession s o).1.round_number := by
  rcases update_fst_cases s o with hcase | ⟨_, _, hrn, _⟩ | ⟨x, _, hcase⟩
  · rw [hcase]
  · rw [hrn]
  · rw [hcase, newOfferStep_round_number]
    exact le_trans (by omega) (le_max_right 1 (s.round_number + 1))

lemma sessionInv_step (s : NegotiationSession) (o : RawOffer)
    (h : SessionInv s) : SessionInv (updateNegotiationSession s o).1 := by
  rcases update_fst_cases s o with hcase | ⟨ht, _, hrn, hst, _, _⟩ | ⟨x, ht, hcase⟩
  · rw [hcase]
    exact h
  · refine ⟨Or.inr (Or.inl hst), fun hf => ?_⟩
    rw [hst] at hf
    simp at hf
  · rw [hcase]
    rcases newOfferStep_status_cases s x with h1 | ⟨h1, h3⟩ | h1
    · refine ⟨Or.inr (Or.inl h1), fun hf => ?_⟩
      rw [h1] at hf
      simp at hf
    · refine ⟨Or.inr (Or.inr h1), fun _ => ?_⟩
      rw [newOfferStep_round_number]
      omega
    · refine ⟨?_, fun hf => ?_⟩
      · rw [h1]
        exact h.1
      · rw [h1] at hf
        exact absurd (Or.inr hf) ht

lemma sessionInv_reachable {s : NegotiationSession} (h : Reachable s) :
    SessionInv s := by
  induction h with
  | init mc load rate sid =>
    exact ⟨Or.inl rfl,
      fun hf => absurd (show ("ongoing" : String) = "failed" from hf) (by decide)⟩
  | step t o ht ih => exact sessionInv_step t o ih

/-- Distinct non-empty session ids give distinct session keys for the
same carrier and load.  (The empty string is excluded: by Python
truthiness it aliases to `"no-session"`.) -/
lemma sessionKey_inj_sid (mc load : String) (a b : String)
    (ha : a ≠ "") (hb : b ≠ "") (hab : a ≠ b) :
    sessionKey mc load (some a) ≠ sessionKey mc load (some b) := by
  intro h
  apply hab
  have h2 : (if a = "" then "no-session" else a) ++ "::" ++ mc ++ "::" ++ load =
      (if b = "" then "no-session" else b) ++ "::" ++ mc ++ "::" ++ load := h
  rw [if_neg ha, if_neg hb] at h2
  have hd := congrArg String.data h2
  simp only [String.data_append, List.append_assoc] at hd
  exact String.ext (List.append_cancel_right hd)

/-- Appending onto a list whose last entry is within `EPS` of the new
offer is a no-op. -/
lemma appendOfferOnce_last_close (l : List ℚ) (x y : ℚ)
    (h : l.getLast? = some y) (hxy : |y - x| < EPS) :
    appendOfferOnce l x = l := by
  unfold appendOfferOnce
  simp only [h]
  rw [if_neg (not_le.mpr hxy)]

/-- Appending the same numeric value twice in a row logs it at most
once: the second append is a no-op. -/
lemma appendOfferOnce_idem (l : List ℚ) (x : ℚ) :
    appendOfferOnce (appendOfferOnce l x) x = appendOfferOnce l x := by
  have hxx : |x - x| < EPS := by norm_num [EPS]
  by_cases happ : appendOfferOnce l x = l
  · rw [happ]
    exact happ
  · have hlast : (appendOfferOnce l x).getLast? = some x := by
      unfold appendOfferOnce at happ ⊢
      rcases hl : l.getLast? with _ | last
      · simp only [hl]
        exact List.getLast?_concat l
      · simp only [hl] at happ ⊢
        split_ifs with hx
        · exact List.getLast?_concat l
        · exact absurd (if_neg hx) happ
    exact appendOfferOnce_last_close _ x x hlast hxx

/-! ### Claim theorems -/

/-- C7: in every session state reachable by any sequence of submitted
offers, `carrier_offers` never contains two consecutive values equal
within the floating-point epsilon; a value within epsilon of the most
recently logged offer is not logged again, so submitting the same
numeric value twice in a row appends it to `carrier_offers` at most
once. -/
theorem carrier_offers_no_consecutive_duplicates (s : NegotiationSession)
    (hs : Reachable s) :
    s.carrier_offers.Chain' (fun a b => EPS ≤ |a - b|) ∧
    (∀ x y, s.carrier_offers.getLast? = some y → |y - x| < EPS →
      appendOfferOnce s.carrier_offers x = s.carrier_offers) ∧
    (∀ x, appendOfferOnce (appendOfferOnce s.carrier_offers x) x =
      appendOfferOnce s.carrier_offers x) := by
  refine ⟨?_, fun x y hy hclose => appendOfferOnce_last_close _ x y hy hclose,
    fun x => appendOfferOnce_idem _ x⟩
  induction hs with
  | init mc load rate sid => simp [NegotiationSession.init]
  | step t o ht ih =>
    rcases update_carrier_offers_cases t o with hcase | ⟨x, hcase⟩
    · rw [hcase]
      exact ih
    · rw [hcase]
      exact chain_appendOfferOnce ih x

/-- C7 witness: at the concrete state reached by submitting 1300 and then
1300 again, the log has no consecutive near-duplicates and appending 1300
twice more logs it at most once. -/
theorem carrier_offers_no_consecutive_duplicates_witness :
    demoStep2.carrier_offers.Chain' (fun a b => EPS ≤ |a - b|) ∧
    appendOfferOnce (appendOfferOnce demoStep2.carrier_offers 1300) 1300 =
      appendOfferOnce demoStep2.carrier_offers 1300 := by
  have h := carrier_offers_no_consecutive_duplicates demoStep2
    (Reachable.step demoStep1 (RawOffer.num 1300)
      (Reachable.step _ (RawOffer.num 1300)
        (Reachable.init "MC-100049" "L-1001" 1000 (some "call-1"))))
  exact ⟨h.1, h.2.2 1300⟩

/-- C10: in every reachable session state, `status = "failed"` implies at
least three rounds were processed, and the stored status is never
`"pending"`. -/
theorem failed_requires_three_rounds (s : NegotiationSession)
    (hs : Reachable s) :
    (s.status = "failed" → 3 ≤ s.round_number) ∧ s.status ≠ "pending" := by
  have h := sessionInv_reachable hs
  refine ⟨h.2, ?_⟩
  rcases h.1 with h1 | h1 | h1 <;> rw [h1] <;> decide

/-- C10 witness: the invariant holds at the concrete failed state reached
by the offer sequence 1300, 1300, 1400 against a board rate of 1000. -/
theorem failed_requires_three_rounds_witness :
    (demoStep3.status = "failed" → 3 ≤ demoStep3.round_number) ∧
    demoStep3.status ≠ "pending" :=
  failed_requires_three_rounds demoStep3
    (Reachable.step demoStep2 (RawOffer.num 1400)
      (Reachable.step demoStep1 (RawOffer.num 1300)
        (Reachable.step _ (RawOffer.num 1300)
          (Reachable.init "MC-100049" "L-1001" 1000 (some "call-1")))))

/-- C8 (amended): a `submit_offer` call addressed to one session key
neither reads nor writes any other key: the post-store is unchanged at
every different key, and the decision (and the addressed key's new value)
depends only on the addressed key's prior value.  Distinct session ids
give distinct keys only when both ids are non-empty: by Python truthiness
the ids `None`, `""` and the literal `"no-session"` all alias to one key
(so those "different" session ids do share a session). -/
theorem session_isolation (mc load : String) (sid1 sid2 : Option String)
    (st : Store) (o : RawOffer) (rate : ℚ)
    (hk : sessionKey mc load sid1 ≠ sessionKey mc load sid2) :
    ((submitOffer st load mc o rate sid1).1 (sessionKey mc load sid2) =
      st (sessionKey mc load sid2)) ∧
    (∀ st2 : Store,
      st2 (sessionKey mc load sid1) = st (sessionKey mc load sid1) →
      (submitOffer st2 load mc o rate sid1).2 =
        (submitOffer st load mc o rate sid1).2 ∧
      (submitOffer st2 load mc o rate sid1).1 (sessionKey mc load sid1) =
        (submitOffer st load mc o rate sid1).1 (sessionKey mc load sid1)) ∧
    (∀ a b : String, a ≠ "" → b ≠ "" → a ≠ b →
      sessionKey mc load (some a) ≠ sessionKey mc load (some b)) ∧
    sessionKey mc load (some "") = sessionKey mc load Option.none ∧
    sessionKey mc load (some "no-session") = sessionKey mc load Option.none := by
  refine ⟨?_, ?_, sessionKey_inj_sid mc load, rfl, rfl⟩
  · rcases hcase : st (sessionKey mc load sid1) with _ | sess <;>
      simp [submitOffer, getOrCreateSession, hcase, Ne.symm hk]
  · intro st2 h2
    rcases hcase : st (sessionKey mc load sid1) with _ | sess <;>
      rw [hcase] at h2 <;>
      simp [submitOffer, getOrCreateSession, hcase, h2]

/-- C8 counterexample: the session ids `""` and `"no-session"` are
different, yet by the source's Python-truthiness keying
(`session_id or 'no-session'`) they map to the same key, so a call under
session id `""` creates/mutates exactly the entry that a call under
`"no-session"` would read: the two "different" sessions share state,
contradicting the claim's universal isolation across distinct
session ids. -/
theorem session_isolation_claim_counterexample :
    ("" : String) ≠ "no-session" ∧
    sessionKey "MC-100049" "L-1001" (some "") =
      sessionKey "MC-100049" "L-1001" (some "no-session") ∧
    (submitOffer (fun _ => Option.none) "L-1001" "MC-100049"
        (RawOffer.num 950) 1000 (some "")).1
      (sessionKey "MC-100049" "L-1001" (some "no-session")) =
      some (updateNegotiationSession
        (NegotiationSession.init "MC-100049" "L-1001" 1000 (some ""))
        (RawOffer.num 950)).1 ∧
    some (updateNegotiationSession
        (NegotiationSession.init "MC-100049" "L-1001" 1000 (some ""))
        (RawOffer.num 950)).1 ≠ (Option.none : Option NegotiationSession) := by
  refine ⟨by decide, by decide, rfl, by simp⟩

/-- C8 witness: concrete instantiation with two call ids on the same
carrier and load; the call under `call-1` leaves the key of `call-2`
absent, and the distinct non-empty ids `a`, `b` give distinct keys. -/
theorem session_isolation_witness :
    (submitOffer (fun _ => Option.none) "L-1001" "MC-100049"
        (RawOffer.num 950) 1000 (some "call-1")).1
      (sessionKey "MC-100049" "L-1001" (some "call-2")) =
      (Option.none : Option NegotiationSession) ∧
    sessionKey "MC-100049" "L-1001" (some "a") ≠
      sessionKey "MC-100049" "L-1001" (some "b") := by
  have h := session_isolation "MC-100049" "L-1001" (some "call-1")
    (some "call-2") (fun _ => Option.none) (RawOffer.num 950) 1000 (by decide)
  exact ⟨h.1, h.2.2.1 "a" "b" (by decide) (by decide) (by decide)⟩

/-- C9: the reference rate used by the engine is the one fixed at session
creation: a call on an existing key gives the same store and decision for
any passed `loadboard_rate`; the addressed session is stepped with its
stored rate, and no engine step ever changes a session's stored
`loadboard_rate`. -/
theorem reference_rate_immutable (st : Store) (load mc : String)
    (sid : Option String) (o : RawOffer) (sess : NegotiationSession)
    (hs : st (sessionKey mc load sid) = some sess) :
    (∀ rate1 rate2 : ℚ,
      submitOffer st load mc o rate1 sid = submitOffer st load mc o rate2 sid) ∧
    (∀ rate : ℚ,
      (submitOffer st load mc o rate sid).1 (sessionKey mc load sid) =
        some (updateNegotiationSession sess o).1) ∧
    ((updateNegotiationSession sess o).1.loadboard_rate =
      sess.loadboard_rate) ∧
    (∀ t : NegotiationSession, ∀ p : RawOffer,
      (updateNegotiationSession t p).1.loadboard_rate = t.loadboard_rate) := by
  refine ⟨?_, ?_, update_keeps_loadboard_rate sess o,
    fun t p => update_keeps_loadboard_rate t p⟩
  · intro rate1 rate2
    simp [submitOffer, getOrCreateSession, hs]
  · intro rate
    simp [submitOffer, getOrCreateSession, hs]

/-- C9 witness: on the concrete one-entry store, passing rate 1 or rate
999999 for the existing key gives identical results, and stepping the
stored session keeps its rate 1000. -/
theorem reference_rate_immutable_witness :
    submitOffer demoStore "L-1001" "MC-100049" (RawOffer.num 950) 1
        (some "call-1") =
      submitOffer demoStore "L-1001" "MC-100049" (RawOffer.num 950) 999999
        (some "call-1") ∧
    (updateNegotiationSession sessionAfterCounter
        (RawOffer.num 950)).1.loadboard_rate =
      sessionAfterCounter.loadboard_rate := by
  have h := reference_rate_immutable demoStore "L-1001" "MC-100049"
    (some "call-1") (RawOffer.num 950) sessionAfterCounter rfl
  exact ⟨h.1 1 999999, h.2.2.1⟩

/-- C2 (amended): once a session is terminal, no call mutates it; a call
whose offer parses to a number returns the frozen decision (same status,
`agreed_rate`, `round_number`); but an absent or non-digit-shaped offer is
answered by the pending guard payload (status `"pending"`, null
`agreed_rate`) before the terminal check, and a digit-shaped unparseable
offer by the ignored payload (frozen status and `round_number`, null
`agreed_rate`). -/
theorem terminal_idempotence (s : NegotiationSession)
    (ht : s.status = "accepted" ∨ s.status = "failed") :
    (∀ o, (updateNegotiationSession s o).1 = s) ∧
    (∀ o x, needsNumericGuard o = false → parseFloat o = some x →
      (updateNegotiationSession s o).2 = frozenDecision s ∧
      (updateNegotiationSession s o).2.status = s.status ∧
      (updateNegotiationSession s o).2.agreed_rate = s.agreed_rate ∧
      (updateNegotiationSession s o).2.round_number = s.round_number) ∧
    (∀ o, needsNumericGuard o = true →
      (updateNegotiationSession s o).2.status = "pending" ∧
      (updateNegotiationSession s o).2.agreed_rate = Option.none ∧
      (updateNegotiationSession s o).2.round_number = s.round_number) ∧
    (∀ o, needsNumericGuard o = false → parseFloat o = Option.none →
      (updateNegotiationSession s o).2.status = s.status ∧
      (updateNegotiationSession s o).2.agreed_rate = Option.none ∧
      (updateNegotiationSession s o).2.round_number = s.round_number) := by
  refine ⟨?_, ?_, ?_, ?_⟩
  · intro o
    rcases hg : needsNumericGuard o with _ | _
    · rcases hp : parseFloat o with _ | x
      · rw [update_of_unparsed s o hg hp]
      · rw [update_of_terminal s o x hg hp ht]
    · rw [update_of_guard s o hg]
  · intro o x hg hp
    rw [update_of_terminal s o x hg hp ht]
    exact ⟨rfl, rfl, rfl, rfl⟩
  · intro o hg
    rw [update_of_guard s o hg]
    exact ⟨rfl, rfl, rfl⟩
  · intro o hg hp
    rw [update_of_unparsed s o hg hp]
    exact ⟨rfl, rfl, rfl⟩

/-- C2 counterexample: on the terminal `acceptedSession` (frozen status
`"accepted"`, agreed rate 1050), a missing offer is answered with status
`"pending"` and a null `agreed_rate` — not the frozen decision the claim
promises for "any raw_offer whatsoever". -/
theorem terminal_idempotence_claim_counterexample :
    acceptedSession.status = "accepted" ∧
    acceptedSession.agreed_rate = some 1050 ∧
    (updateNegotiationSession acceptedSession RawOffer.missing).2.status =
      "pending" ∧
    ("pending" : String) ≠ "accepted" ∧
    (updateNegotiationSession acceptedSession RawOffer.missing).2.agreed_rate =
      Option.none := by
  refine ⟨rfl, rfl, ?_, by decide, ?_⟩ <;>
    rw [update_of_guard acceptedSession RawOffer.missing rfl] <;> rfl

/-- C2 witness: on the terminal `acceptedSession`, a numeric offer of 1400
leaves the session unchanged and returns the frozen status, agreed rate
and round number. -/
theorem terminal_idempotence_witness :
    (updateNegotiationSession acceptedSession (RawOffer.num 1400)).1 =
      acceptedSession ∧
    (updateNegotiationSession acceptedSession (RawOffer.num 1400)).2.status =
      acceptedSession.status ∧
    (updateNegotiationSession acceptedSession
        (RawOffer.num 1400)).2.agreed_rate = acceptedSession.agreed_rate ∧
    (updateNegotiationSession acceptedSession
        (RawOffer.num 1400)).2.round_number = acceptedSession.round_number := by
  have h := terminal_idempotence acceptedSession (Or.inl rfl)
  exact ⟨h.1 (RawOffer.num 1400), (h.2.1 (RawOffer.num 1400) 1400 rfl rfl).2.1,
    (h.2.1 (RawOffer.num 1400) 1400 rfl rfl).2.2.1,
    (h.2.1 (RawOffer.num 1400) 1400 rfl rfl).2.2.2⟩

/-- C4 (amended): on a non-terminal session with an outstanding counter
`c`, a numeric offer within epsilon of `c` accepts at `c` — status
`"accepted"`, `agreed_rate = c`, no append to `carrier_offers`, session
`round_number` unchanged (reported as `max 1 round_number`) — but the
source leaves `last_counter_offer` set to `c` rather than clearing it. -/
theorem echo_acceptance (s : NegotiationSession) (c x : ℚ)
    (ht : ¬(s.status = "accepted" ∨ s.status = "failed"))
    (hc : s.last_counter_offer = some c) (hx : |x - c| < EPS) :
    (updateNegotiationSession s (RawOffer.num x)).2.status = "accepted" ∧
    (updateNegotiationSession s (RawOffer.num x)).2.agreed_rate = some c ∧
    (updateNegotiationSession s (RawOffer.num x)).1.status = "accepted" ∧
    (updateNegotiationSession s (RawOffer.num x)).1.agreed_rate = some c ∧
    (updateNegotiationSession s (RawOffer.num x)).1.last_counter_offer =
      some c ∧
    (updateNegotiationSession s (RawOffer.num x)).1.carrier_offers =
      s.carrier_offers ∧
    (updateNegotiationSession s (RawOffer.num x)).2.carrier_offers =
      s.carrier_offers ∧
    (updateNegotiationSession s (RawOffer.num x)).1.round_number =
      s.round_number ∧
    (updateNegotiationSession s (RawOffer.num x)).2.round_number =
      max 1 s.round_number := by
  rw [update_of_echo s x c ht hc hx]
  refine ⟨rfl, rfl, rfl, rfl, ?_, rfl, rfl, rfl, rfl⟩
  simp [echoAcceptResult, hc]

/-- C4 counterexample: echoing the outstanding 1050 counter on
`sessionAfterCounter` accepts but leaves `last_counter_offer = some 1050`
in the session — it is not cleared as the claim states. -/
theorem echo_acceptance_claim_counterexample :
    (updateNegotiationSession sessionAfterCounter
        (RawOffer.num 1050)).1.last_counter_offer = some 1050 ∧
    some (1050 : ℚ) ≠ (Option.none : Option ℚ) := by
  constructor
  · rw [update_of_echo sessionAfterCounter 1050 1050 (by decide) rfl
      (by norm_num [EPS])]
    rfl
  · simp

/-- C4 witness: the echo-acceptance behaviour at the concrete state
`sessionAfterCounter` with offer 1050. -/
theorem echo_acceptance_witness :
    (updateNegotiationSession sessionAfterCounter
        (RawOffer.num 1050)).2.status = "accepted" ∧
    (updateNegotiationSession sessionAfterCounter
        (RawOffer.num 1050)).2.agreed_rate = some 1050 ∧
    (updateNegotiationSession sessionAfterCounter
        (RawOffer.num 1050)).1.status = "accepted" ∧
    (updateNegotiationSession sessionAfterCounter
        (RawOffer.num 1050)).1.agreed_rate = some 1050 ∧
    (updateNegotiationSession sessionAfterCounter
        (RawOffer.num 1050)).1.last_counter_offer = some 1050 ∧
    (updateNegotiationSession sessionAfterCounter
        (RawOffer.num 1050)).1.carrier_offers =
      sessionAfterCounter.carrier_offers ∧
    (updateNegotiationSession sessionAfterCounter
        (RawOffer.num 1050)).2.carrier_offers =
      sessionAfterCounter.carrier_offers ∧
    (updateNegotiationSession sessionAfterCounter
        (RawOffer.num 1050)).1.round_number =
      sessionAfterCounter.round_number ∧
    (updateNegotiationSession sessionAfterCounter
        (RawOffer.num 1050)).2.round_number =
      max 1 sessionAfterCounter.round_number :=
  echo_acceptance sessionAfterCounter 1050 1050 (by decide) rfl
    (by norm_num [EPS])

/-- C5 (amended): an absent offer, or one failing the digit-shape guard
(such as `"-100"` or any lettered text), is answered with status
`"pending"` and message `needs_numeric_from_carrier`, with no session
mutation; a digit-shaped offer that still fails numeric parsing (such as
`"²"`) instead returns the session's current status with message
`Non-numeric offer ignored`, likewise without mutation; every input
returns a decision (total function — no exception escapes). -/
theorem nonNumeric_guard_behaviour (s : NegotiationSession) :
    (∀ o, needsNumericGuard o = true →
      updateNegotiationSession s o = (s, guardDecision s) ∧
      (updateNegotiationSession s o).2.status = "pending" ∧
      (updateNegotiationSession s o).2.message =
        Message.needsNumericFromCarrier ∧
      (updateNegotiationSession s o).2.round_number = s.round_number ∧
      (updateNegotiationSession s o).1 = s) ∧
    needsNumericGuard RawOffer.missing = true ∧
    needsNumericGuard (RawOffer.text false (some (-100))) = true ∧
    (updateNegotiationSession s (RawOffer.text true Option.none) =
        (s, ignoredDecision s) ∧
      (updateNegotiationSession s (RawOffer.text true Option.none)).2.status =
        s.status ∧
      (updateNegotiationSession s (RawOffer.text true Option.none)).2.message =
        Message.nonNumericIgnored ∧
      (updateNegotiationSession s (RawOffer.text true Option.none)).1 = s) := by
  refine ⟨?_, rfl, rfl, ?_⟩
  · intro o hg
    rw [update_of_guard s o hg]
    exact ⟨rfl, rfl, rfl, rfl, rfl⟩
  · rw [update_of_unparsed s (RawOffer.text true Option.none) rfl rfl]
    exact ⟨rfl, rfl, rfl, rfl⟩

/-- C5 counterexample: the digit-shaped but unparseable offer
(`text true Option.none`, realised in Python by the superscript digit
string) cannot be parsed as a number, yet on the ongoing
`sessionAfterCounter` it is answered with status `"ongoing"` and message
`Non-numeric offer ignored` — not the `"pending"` /
`needs_numeric_from_carrier` response the claim promises for every
unparseable offer. -/
theorem nonNumeric_guard_claim_counterexample :
    parseFloat (RawOffer.text true Option.none) = Option.none ∧
    (updateNegotiationSession sessionAfterCounter
        (RawOffer.text true Option.none)).2.status = "ongoing" ∧
    ("ongoing" : String) ≠ "pending" ∧
    (updateNegotiationSession sessionAfterCounter
        (RawOffer.text true Option.none)).2.message =
      Message.nonNumericIgnored ∧
    Message.nonNumericIgnored ≠ Message.needsNumericFromCarrier := by
  refine ⟨rfl, ?_, by decide, ?_, by decide⟩ <;>
    rw [update_of_unparsed sessionAfterCounter (RawOffer.text true Option.none)
      rfl rfl] <;> rfl

/-- C5 witness: a missing offer on `sessionAfterCounter` yields the
pending payload and no mutation. -/
theorem nonNumeric_guard_behaviour_witness :
    updateNegotiationSession sessionAfterCounter RawOffer.missing =
      (sessionAfterCounter, guardDecision sessionAfterCounter) ∧
    (updateNegotiationSession sessionAfterCounter
        RawOffer.missing).2.status = "pending" ∧
    (updateNegotiationSession sessionAfterCounter
        RawOffer.missing).2.round_number =
      sessionAfterCounter.round_number := by
  have h := nonNumeric_guard_behaviour sessionAfterCounter
  exact ⟨(h.1 RawOffer.missing rfl).1, (h.1 RawOffer.missing rfl).2.1,
    (h.1 RawOffer.missing rfl).2.2.2.1⟩

/-- C1 (amended): on a non-terminal session, a numeric offer that is
neither an echo of the outstanding counter nor a round-0 match of the
board rate is appended to `carrier_offers` via the append-once rule
(skipped only when it repeats the previous logged offer within epsilon),
the session round becomes `max 1 (round_number + 1)`, and with
`r = clamp(round_number, 1, 3)` and `max_acceptable = round_tolerance`:
within tolerance the result is `"accepted"` with
`agreed_rate = round(raw_offer, 2)` (not the raw offer) and the counter
cleared; over tolerance with `r < 3` the result is `"ongoing"` countering
at exactly `max_acceptable`; over tolerance at `r >= 3` the result is
`"failed"` with no agreed rate and `last_counter_offer` left unchanged. -/
theorem newOffer_path_behaviour (s : NegotiationSession) (x : ℚ)
    (ht : ¬(s.status = "accepted" ∨ s.status = "failed"))
    (hech : ∀ c, s.last_counter_offer = some c → EPS ≤ |x - c|)
    (h0 : ¬(s.round_number = 0 ∧ |x - s.loadboard_rate| < EPS)) :
    (updateNegotiationSession s (RawOffer.num x)).1.carrier_offers =
      appendOfferOnce s.carrier_offers x ∧
    (updateNegotiationSession s (RawOffer.num x)).2.carrier_offers =
      appendOfferOnce s.carrier_offers x ∧
    (updateNegotiationSession s (RawOffer.num x)).1.round_number =
      max 1 (s.round_number + 1) ∧
    (updateNegotiationSession s (RawOffer.num x)).2.round_number =
      max 1 (min (max 1 (s.round_number + 1)) 3) ∧
    (updateNegotiationSession s (RawOffer.num x)).2.max_acceptable =
      roundTolerance s.loadboard_rate
        (max 1 (min (max 1 (s.round_number + 1)) 3)) ∧
    (updateNegotiationSession s (RawOffer.num x)).2.hard_cap =
      hardCap s.loadboard_rate ∧
    (x ≤ roundTolerance s.loadboard_rate
        (max 1 (min (max 1 (s.round_number + 1)) 3)) + EPS →
      (updateNegotiationSession s (RawOffer.num x)).2.status = "accepted" ∧
      (updateNegotiationSession s (RawOffer.num x)).2.agreed_rate =
        some (round2 x) ∧
      (updateNegotiationSession s (RawOffer.num x)).1.status = "accepted" ∧
      (updateNegotiationSession s (RawOffer.num x)).1.agreed_rate =
        some (round2 x) ∧
      (updateNegotiationSession s (RawOffer.num x)).1.last_counter_offer =
        Option.none) ∧
    (roundTolerance s.loadboard_rate
        (max 1 (min (max 1 (s.round_number + 1)) 3)) + EPS < x →
      max 1 (min (max 1 (s.round_number + 1)) 3) < 3 →
      (updateNegotiationSession s (RawOffer.num x)).2.status = "ongoing" ∧
      (updateNegotiationSession s (RawOffer.num x)).2.broker_counter_offer =
        some (roundTolerance s.loadboard_rate
          (max 1 (min (max 1 (s.round_number + 1)) 3))) ∧
      (updateNegotiationSession s (RawOffer.num x)).1.last_counter_offer =
        some (roundTolerance s.loadboard_rate
          (max 1 (min (max 1 (s.round_number + 1)) 3))) ∧
      (updateNegotiationSession s (RawOffer.num x)).1.status = s.status) ∧
    (roundTolerance s.loadboard_rate
        (max 1 (min (max 1 (s.round_number + 1)) 3)) + EPS < x →
      3 ≤ max 1 (min (max 1 (s.round_number + 1)) 3) →
      (updateNegotiationSession s (RawOffer.num x)).2.status = "failed" ∧
      (updateNegotiationSession s (RawOffer.num x)).2.agreed_rate =
        Option.none ∧
      (updateNegotiationSession s (RawOffer.num x)).1.status = "failed" ∧
      (updateNegotiationSession s (RawOffer.num x)).1.agreed_rate =
        Option.none ∧
      (updateNegotiationSession s (RawOffer.num x)).1.last_counter_offer =
        s.last_counter_offer ∧
      (updateNegotiationSession s (RawOffer.num x)).2.broker_counter_offer =
        s.last_counter_offer) := by
  rw [update_of_newOffer s x ht hech h0]
  unfold newOfferStep
  dsimp only
  split_ifs with h1 h2
  · exact ⟨rfl, rfl, rfl, rfl, rfl, rfl,
      fun _ => ⟨rfl, rfl, rfl, rfl, rfl⟩,
      fun hlt _ => absurd h1 (not_le.mpr hlt),
      fun hlt _ => absurd h1 (not_le.mpr hlt)⟩
  · exact ⟨rfl, rfl, rfl, rfl, rfl, rfl,
      fun hle => absurd hle (not_le.mpr h2.2),
      fun _ hr3 => absurd h2.1 (not_le.mpr hr3),
      fun _ _ => ⟨rfl, rfl, rfl, rfl, rfl, rfl⟩⟩
  · exact ⟨rfl, rfl, rfl, rfl, rfl, rfl,
      fun hle => absurd hle h1,
      fun _ _ => ⟨rfl, rfl, rfl, rfl⟩,
      fun hlt h3 => absurd ⟨h3, hlt⟩ h2⟩

/-- C1 counterexample: (i) against a fresh 1000-rate session the in-range
offer 900.004 is accepted with `agreed_rate = 900` — `round(offer, 2)`,
not the raw offer the claim promises; (ii) on `sessionAfterCounter`
(previous logged offer 1300) re-submitting 1300 is not appended:
`carrier_offers` stays `[1300]` instead of gaining the new entry the
claim's unconditional "appends raw_offer" requires. -/
theorem newOffer_path_claim_counterexample :
    ((updateNegotiationSession
        (NegotiationSession.init "MC-100049" "L-1001" 1000 (some "call-1"))
        (RawOffer.num (900 + 1/250))).2.agreed_rate = some 900 ∧
      (900 : ℚ) ≠ 900 + 1/250) ∧
    ((updateNegotiationSession sessionAfterCounter
        (RawOffer.num 1300)).1.carrier_offers = [1300] ∧
      ([1300] : List ℚ) ≠ [1300, 1300]) := by
  refine ⟨⟨?_, by norm_num⟩, ⟨?_, by simp⟩⟩
  · norm_num [updateNegotiationSession, NegotiationSession.init,
      needsNumericGuard, parseFloat, newOfferStep, roundTolerance, round2,
      hardCap, EPS, round_eq, appendOfferOnce, abs_lt, le_abs]
    decide
  · norm_num [updateNegotiationSession, sessionAfterCounter,
      needsNumericGuard, parseFloat, newOfferStep, roundTolerance, round2,
      hardCap, EPS, round_eq, appendOfferOnce, abs_lt, le_abs]
    decide

/-- C1 witness: the new-offer path at `sessionAfterCounter` with the
(duplicate) offer 1300: logged via append-once and round bumped. -/
theorem newOffer_path_behaviour_witness :
    (updateNegotiationSession sessionAfterCounter
        (RawOffer.num 1300)).1.carrier_offers =
      appendOfferOnce sessionAfterCounter.carrier_offers 1300 ∧
    (updateNegotiationSession sessionAfterCounter
        (RawOffer.num 1300)).1.round_number =
      max 1 (sessionAfterCounter.round_number + 1) ∧
    (updateNegotiationSession sessionAfterCounter
        (RawOffer.num 1300)).2.max_acceptable =
      roundTolerance sessionAfterCounter.loadboard_rate
        (max 1 (min (max 1 (sessionAfterCounter.round_number + 1)) 3)) := by
  have h := newOffer_path_behaviour sessionAfterCounter 1300 (by decide)
    (by
      intro c hc
      have hc2 : some (1050 : ℚ) = some c := hc
      injection hc2 with hc3
      rw [← hc3]
      norm_num [EPS])
    (by
      intro hand
      exact absurd hand.1 (by decide))
  exact ⟨h.1, h.2.2.1, h.2.2.2.2.1⟩

/-- C3 (amended): `round_number` never decreases; it is unchanged on a
missing or unparseable offer, on a terminal session, on an echo of the
outstanding counter, and on a round-0 board-rate match; it strictly
increases on every run of the new-offer path — including when the numeric
offer duplicates the previous carrier offer (the duplicate is not
re-logged, but the round still bumps). -/
theorem round_number_evolution (s : NegotiationSession) :
    (∀ o, s.round_number ≤ (updateNegotiationSession s o).1.round_number) ∧
    (∀ o, needsNumericGuard o = true →
      (updateNegotiationSession s o).1.round_number = s.round_number) ∧
    (∀ o, parseFloat o = Option.none →
      (updateNegotiationSession s o).1.round_number = s.round_number) ∧
    (∀ o, s.status = "accepted" ∨ s.status = "failed" →
      (updateNegotiationSession s o).1.round_number = s.round_number) ∧
    (∀ y c, ¬(s.status = "accepted" ∨ s.status = "failed") →
      s.last_counter_offer = some c → |y - c| < EPS →
      (updateNegotiationSession s (RawOffer.num y)).1.round_number =
        s.round_number) ∧
    (∀ y, ¬(s.status = "accepted" ∨ s.status = "failed") →
      (∀ c, s.last_counter_offer = some c → EPS ≤ |y - c|) →
      s.round_number = 0 → |y - s.loadboard_rate| < EPS →
      (updateNegotiationSession s (RawOffer.num y)).1.round_number =
        s.round_number) ∧
    (∀ y, ¬(s.status = "accepted" ∨ s.status = "failed") →
      (∀ c, s.last_counter_offer = some c → EPS ≤ |y - c|) →
      ¬(s.round_number = 0 ∧ |y - s.loadboard_rate| < EPS) →
      s.round_number <
        (updateNegotiationSession s (RawOffer.num y)).1.round_number) := by
  refine ⟨update_round_number_mono s, ?_, ?_, ?_, ?_, ?_, ?_⟩
  · intro o hg
    rw [update_of_guard s o hg]
  · intro o hp
    rcases hg : needsNumericGuard o with _ | _
    · rw [update_of_unparsed s o hg hp]
    · rw [update_of_guard s o hg]
  · intro o hterm
    rcases hg : needsNumericGuard o with _ | _
    · rcases hp : parseFloat o with _ | x
      · rw [update_of_unparsed s o hg hp]
      · rw [update_of_terminal s o x hg hp hterm]
    · rw [update_of_guard s o hg]
  · intro y c hterm hc hy
    rw [update_of_echo s y c hterm hc hy]
    exact rfl
  · intro y hterm hech h00 hy
    rw [update_of_roundZero s y hterm hech ⟨h00, hy⟩]
    exact rfl
  · intro y hterm hech h0
    rw [update_of_newOffer s y hterm hech h0, newOfferStep_round_number]
    omega

/-- C3 counterexample: on `sessionAfterCounter` the carrier re-submits
its previous offer 1300 — a duplicate, not logged again — yet
`round_number` increases from 1 to 2, contradicting the claim that the
round never increases on a duplicate of the previous carrier offer. -/
theorem round_number_claim_counterexample :
    sessionAfterCounter.carrier_offers = [1300] ∧
    sessionAfterCounter.round_number = 1 ∧
    (updateNegotiationSession sessionAfterCounter
        (RawOffer.num 1300)).1.carrier_offers = [1300] ∧
    (updateNegotiationSession sessionAfterCounter
        (RawOffer.num 1300)).1.round_number = 2 := by
  refine ⟨rfl, rfl, ?_, ?_⟩ <;>
    norm_num [updateNegotiationSession, sessionAfterCounter,
      needsNumericGuard, parseFloat, newOfferStep, roundTolerance, round2,
      hardCap, EPS, round_eq, appendOfferOnce, abs_lt, le_abs] <;> decide

/-- C3 witness: at `sessionAfterCounter`, a missing offer keeps the round
at 1 while the distinct new offer 1400 strictly increases it. -/
theorem round_number_evolution_witness :
    sessionAfterCounter.round_number ≤
      (updateNegotiationSession sessionAfterCounter
        RawOffer.missing).1.round_number ∧
    (updateNegotiationSession sessionAfterCounter
        RawOffer.missing).1.round_number = sessionAfterCounter.round_number ∧
    sessionAfterCounter.round_number <
      (updateNegotiationSession sessionAfterCounter
        (RawOffer.num 1400)).1.round_number := by
  have h := round_number_evolution sessionAfterCounter
  refine ⟨h.1 RawOffer.missing, h.2.1 RawOffer.missing rfl,
    h.2.2.2.2.2.2 1400 (by decide) ?_ ?_⟩
  · intro c hc
    have hc2 : some (1050 : ℚ) = some c := hc
    injection hc2 with hc3
    rw [← hc3]
    norm_num [EPS]
  · intro hand
    exact absurd hand.1 (by decide)

/-- C6 (amended): for every `R > 0` and `r ∈ {1,2,3}` the ceiling is
`round(R * (1 + 0.05 r), 2)`; it is monotone non-decreasing in `r`, and
strictly increasing whenever the per-round step is at least one cent
(`5 R ≥ 1`, i.e. `R ≥ 0.2`) — for smaller rates consecutive ceilings can
round to the same cent; beyond round 3 the ceiling is capped at the
round-3 value, which equals the hard cap `round(R * 1.15, 2)`. -/
theorem tolerance_monotonicity (R : ℚ) (hR : 0 < R) :
    roundTolerance R 1 = round2 (R * (1 + 5/100 * 1)) ∧
    roundTolerance R 2 = round2 (R * (1 + 5/100 * 2)) ∧
    roundTolerance R 3 = round2 (R * (1 + 5/100 * 3)) ∧
    roundTolerance R 1 ≤ roundTolerance R 2 ∧
    roundTolerance R 2 ≤ roundTolerance R 3 ∧
    (1 ≤ 5 * R →
      roundTolerance R 1 < roundTolerance R 2 ∧
      roundTolerance R 2 < roundTolerance R 3) ∧
    (∀ n : ℤ, 3 < n → roundTolerance R n = roundTolerance R 3) ∧
    roundTolerance R 3 = hardCap R := by
  have e1 : roundTolerance R 1 = round2 (R * (1 + 5/100 * 1)) := by
    norm_num [roundTolerance]
  have e2 : roundTolerance R 2 = round2 (R * (1 + 5/100 * 2)) := by
    norm_num [roundTolerance]
  have e3 : roundTolerance R 3 = round2 (R * (1 + 5/100 * 3)) := by
    norm_num [roundTolerance]
  refine ⟨e1, e2, e3, ?_, ?_, ?_, ?_, ?_⟩
  · rw [e1, e2]
    exact round2_le_round2 (by nlinarith)
  · rw [e2, e3]
    exact round2_le_round2 (by nlinarith)
  · intro h5
    constructor
    · rw [e1, e2]
      exact round2_lt_round2 (by linarith)
    · rw [e2, e3]
      exact round2_lt_round2 (by linarith)
  · intro n hn
    have hclamp : max 1 (min n 3) = max 1 (min (3:ℤ) 3) := by omega
    rw [roundTolerance, roundTolerance, hclamp]
  · rw [e3]
    unfold hardCap
    congr 1
    ring

/-- C6 counterexample: at the positive reference rate `R = 1/100` the
round-1 and round-2 ceilings both round to `0.01`, so the ceiling is not
strictly increasing in the round index as the claim states. -/
theorem tolerance_monotonicity_claim_counterexample :
    (0 : ℚ) < 1/100 ∧
    roundTolerance (1/100) 1 = 1/100 ∧
    roundTolerance (1/100) 2 = 1/100 ∧
    ¬(roundTolerance (1/100) 1 < roundTolerance (1/100) 2) := by
  have h1 : roundTolerance (1/100) 1 = 1/100 := by
    norm_num [roundTolerance, round2, round_eq]
  have h2 : roundTolerance (1/100) 2 = 1/100 := by
    norm_num [roundTolerance, round2, round_eq]
  exact ⟨by norm_num, h1, h2, by rw [h1, h2]; exact lt_irrefl _⟩

/-- C6 witness: the full tolerance behaviour at the concrete reference
rate 1000, where the strictness hypothesis holds. -/
theorem tolerance_monotonicity_witness :
    roundTolerance 1000 1 < roundTolerance 1000 2 ∧
    roundTolerance 1000 2 < roundTolerance 1000 3 ∧
    roundTolerance 1000 3 = hardCap 1000 ∧
    roundTolerance 1000 7 = roundTolerance 1000 3 := by
  obtain ⟨e1, e2, e3, m12, m23, hstrict, hcap, hhc⟩ :=
    tolerance_monotonicity 1000 (by norm_num)
  exact ⟨(hstrict (by norm_num)).1, (hstrict (by norm_num)).2, hhc,
    hcap 7 (by norm_num)⟩
